import Mathlib

/-!
Verification of the transport / orchestration core of the `unreal-mcp` bridge.

The development shallowly embeds, from `src/Python/unreal_mcp_server.py`:
  * the JSON value model produced by `json.loads` (`JVal`) together with the
    CPython dict/truthiness operations the code uses,
  * the framing loop `UnrealConnection.receive_full_response`,
  * the command cycle `UnrealConnection.send_command` (result shape and the
    connection/socket bookkeeping),
and, from `src/Python/orchestrator.py`:
  * `MAX_RETRIES`, `plan_steps` and the retry/ledger loop `execute_steps`.

External effects (the TCP socket, the engine peer and the tool modules the
orchestrator dispatches to) are modelled as explicit behaviour parameters;
everything the repository's own lines decide is translated directly.
-/

namespace UnrealMCP

/-- A JSON value as decoded by CPython's `json.loads`.  Numbers keep their
source lexeme (the claims never compute with numeric magnitudes, and this
avoids floating point); objects are the final key/value association produced
by CPython's dict building (later duplicate keys overwrite in place). -/
inductive JVal where
  | jnull : JVal
  | jbool : Bool → JVal
  | jnum : String → JVal
  | jstr : String → JVal
  | jarr : List JVal → JVal
  | jobj : List (String × JVal) → JVal

/-- Python dict lookup `dict.get(k)` on a decoded JSON object. -/
def dictGet (fields : List (String × JVal)) (k : String) : Option JVal :=
  match fields with
  | [] => none
  | (k', v) :: rest => if k' = k then some v else dictGet rest k

/-- Python membership test `k in dict` on a decoded JSON object. -/
def dictContains (fields : List (String × JVal)) (k : String) : Bool :=
  match fields with
  | [] => false
  | (k', _) :: rest => if k' = k then true else dictContains rest k

/-- Python assignment `dict[k] = v`: CPython keeps the position of an existing key and replaces
its value, otherwise appends the new binding. -/
def dictSet (fields : List (String × JVal)) (k : String) (v : JVal) :
    List (String × JVal) :=
  match fields with
  | [] => [(k, v)]
  | (k', v') :: rest =>
      if k' = k then (k', v) :: rest else (k', v') :: dictSet rest k v

/-- Whether a JSON number lexeme denotes zero: true exactly when every digit
of its integer and fraction parts is `0` (the exponent cannot make a nonzero
mantissa zero). -/
def numLexemeIsZero (s : String) : Bool :=
  decide (∀ c ∈ (s.toList.takeWhile fun c => c ≠ 'e' ∧ c ≠ 'E'),
    c = '0' ∨ c = '-' ∨ c = '+' ∨ c = '.')

/-- CPython truthiness of a decoded JSON value (`bool(x)`). -/
def truthy : JVal → Bool
  | .jnull => false
  | .jbool b => b
  | .jnum s => !numLexemeIsZero s
  | .jstr s => !(s == "")
  | .jarr xs => !xs.isEmpty
  | .jobj fs => !fs.isEmpty

/-- CPython `x or y` on decoded JSON values. -/
def pyOr (x y : JVal) : JVal := if truthy x then x else y

/-- CPython `str(x)` on a decoded JSON value, as used for `str(Exception(x))`.
Exact for strings, booleans and `None` (the only cases the claims exercise);
numbers are approximated by their source lexeme and containers by a
placeholder, neither of which any theorem below depends on. -/
def pyStr : JVal → String
  | .jstr s => s
  | .jnull => "None"
  | .jbool true => "True"
  | .jbool false => "False"
  | .jnum s => s
  | .jarr _ => "<list>"
  | .jobj _ => "<dict>"

/-- A UTF-8 continuation byte (`0x80`–`0xBF`). -/
def contByte (b : Nat) : Bool := 128 ≤ b && b ≤ 191

/-- Strict UTF-8 decoding of a byte sequence, as CPython's
`bytes.decode('utf-8')`: overlong forms, surrogates, out-of-range code
points and truncated sequences are all rejected.  Used by
`receive_full_response` (via `decoded_data = data.decode('utf-8')`) and by
`send_command`. -/
def utf8_decode : List Nat → Option (List Char)
  | [] => some []
  | b :: rest =>
    if b ≤ 127 then
      (utf8_decode rest).map fun cs => Char.ofNat b :: cs
    else if 194 ≤ b && b ≤ 223 then
      match rest with
      | c1 :: rest2 =>
        if contByte c1 then
          (utf8_decode rest2).map fun cs =>
            Char.ofNat ((b - 192) * 64 + (c1 - 128)) :: cs
        else none
      | [] => none
    else if 224 ≤ b && b ≤ 239 then
      match rest with
      | c1 :: c2 :: rest2 =>
        let okC1 : Bool :=
          if b = 224 then 160 ≤ c1 && c1 ≤ 191
          else if b = 237 then 128 ≤ c1 && c1 ≤ 159
          else contByte c1
        if okC1 && contByte c2 then
          (utf8_decode rest2).map fun cs =>
            Char.ofNat ((b - 224) * 4096 + (c1 - 128) * 64 + (c2 - 128)) :: cs
        else none
      | _ => none
    else if 240 ≤ b && b ≤ 244 then
      match rest with
      | c1 :: c2 :: c3 :: rest2 =>
        let okC1 : Bool :=
          if b = 240 then 144 ≤ c1 && c1 ≤ 191
          else if b = 244 then 128 ≤ c1 && c1 ≤ 143
          else contByte c1
        if okC1 && contByte c2 && contByte c3 then
          (utf8_decode rest2).map fun cs =>
            Char.ofNat ((b - 240) * 262144 + (c1 - 128) * 4096 +
              (c2 - 128) * 64 + (c3 - 128)) :: cs
        else none
      | _ => none
    else none

/-- The double-quote character (written by code point to keep string
handling uniform). -/
def quoteChar : Char := Char.ofNat 34

/-- The backslash character. -/
def backslashChar : Char := Char.ofNat 92

/-- JSON whitespace accepted by CPython's `json` scanner. -/
def jsonWs (c : Char) : Bool := c = ' ' || c = '\t' || c = '\n' || c = '\r'

/-- Drop leading JSON whitespace. -/
def skipWs : List Char → List Char
  | c :: cs => if jsonWs c then skipWs cs else c :: cs
  | [] => []

/-- ASCII decimal digit test. -/
def isDigit (c : Char) : Bool := '0' ≤ c && c ≤ '9'

/-- Split off a maximal run of decimal digits. -/
def takeDigits : List Char → List Char × List Char
  | c :: cs =>
      if isDigit c then
        let (ds, r) := takeDigits cs
        (c :: ds, r)
      else ([], c :: cs)
  | [] => ([], [])

/-- Value of one hex digit. -/
def hexDigitVal (c : Char) : Option Nat :=
  if isDigit c then some (c.toNat - 48)
  else if 'a' ≤ c && c ≤ 'f' then some (c.toNat - 87)
  else if 'A' ≤ c && c ≤ 'F' then some (c.toNat - 55)
  else none

/-- Body of a JSON string after the opening quote, per CPython's strict
scanner: raw control characters are rejected, the escapes are the eight
single-character ones plus `\uXXXX`.  (Escaped surrogate halves, which
CPython keeps as lone surrogates, fall outside Lean's `Char`; `Char.ofNat`
maps them to a default character — no claim exercises them.)  Returns the
decoded content and the input after the closing quote. -/
def parseJStr : List Char → Option (List Char × List Char)
  | [] => none
  | c :: rest =>
    if c = quoteChar then some ([], rest)
    else if c = backslashChar then
      match rest with
      | [] => none
      | e :: rest2 =>
        if e = quoteChar then
          (parseJStr rest2).map fun (s, r) => (quoteChar :: s, r)
        else if e = backslashChar then
          (parseJStr rest2).map fun (s, r) => (backslashChar :: s, r)
        else if e = '/' then
          (parseJStr rest2).map fun (s, r) => ('/' :: s, r)
        else if e = 'b' then
          (parseJStr rest2).map fun (s, r) => (Char.ofNat 8 :: s, r)
        else if e = 'f' then
          (parseJStr rest2).map fun (s, r) => (Char.ofNat 12 :: s, r)
        else if e = 'n' then
          (parseJStr rest2).map fun (s, r) => ('\n' :: s, r)
        else if e = 'r' then
          (parseJStr rest2).map fun (s, r) => ('\r' :: s, r)
        else if e = 't' then
          (parseJStr rest2).map fun (s, r) => ('\t' :: s, r)
        else if e = 'u' then
          match rest2 with
          | h1 :: h2 :: h3 :: h4 :: rest3 =>
            match hexDigitVal h1, hexDigitVal h2, hexDigitVal h3, hexDigitVal h4 with
            | some a, some b, some c, some d =>
                (parseJStr rest3).map fun (s, r) =>
                  (Char.ofNat (a * 4096 + b * 256 + c * 16 + d) :: s, r)
            | _, _, _, _ => none
          | _ => none
        else none
    else if c.toNat < 32 then none
    else (parseJStr rest).map fun (s, r) => (c :: s, r)

/-- A JSON number lexeme per CPython's `json` scanner regex
`-?(0|[1-9][0-9]*)([.][0-9]+)?([eE][-+]?[0-9]+)?`.  Returns the lexeme and
the remaining input. -/
def parseNumber (input : List Char) : Option (String × List Char) :=
  let (sign, s1) :=
    match input with
    | c :: r => if c = '-' then (['-'], r) else (([] : List Char), input)
    | [] => ([], [])
  match s1 with
  | [] => none
  | c :: r =>
    if ¬ isDigit c then none
    else
      let (ip, s2) :=
        if c = '0' then ([c], r)
        else
          let (ds, r2) := takeDigits r
          (c :: ds, r2)
      let (fp, s3) :=
        match s2 with
        | '.' :: r2 =>
            let (ds, r3) := takeDigits r2
            if ds.isEmpty then (([] : List Char), s2) else ('.' :: ds, r3)
        | _ => ([], s2)
      if fp.isEmpty && ¬ (s3 = s2) then none
      else
        match s3 with
        | e :: r2 =>
          if e = 'e' || e = 'E' then
            let (es, r3) :=
              match r2 with
              | c2 :: r3 =>
                  if c2 = '-' || c2 = '+' then ([c2], r3) else (([] : List Char), r2)
              | [] => ([], [])
            let (ds, r4) := takeDigits r3
            if ds.isEmpty then some (String.mk (sign ++ ip ++ fp), s3)
            else some (String.mk (sign ++ ip ++ fp ++ [e] ++ es ++ ds), r4)
          else some (String.mk (sign ++ ip ++ fp), s3)
        | [] => some (String.mk (sign ++ ip ++ fp), [])

mutual

/-- One JSON value per CPython's `json.loads` grammar (which also accepts
`NaN`, `Infinity` and `-Infinity`).  `fuel` only bounds recursion depth; it
is chosen generously by `json_loads`. -/
def parseValue : Nat → List Char → Option (JVal × List Char)
  | 0, _ => none
  | _ + 1, [] => none
  | fuel + 1, input@(c :: r) =>
    match input with
    | 't' :: 'r' :: 'u' :: 'e' :: r2 => some (.jbool true, r2)
    | 'f' :: 'a' :: 'l' :: 's' :: 'e' :: r2 => some (.jbool false, r2)
    | 'n' :: 'u' :: 'l' :: 'l' :: r2 => some (.jnull, r2)
    | 'N' :: 'a' :: 'N' :: r2 => some (.jnum "NaN", r2)
    | 'I' :: 'n' :: 'f' :: 'i' :: 'n' :: 'i' :: 't' :: 'y' :: r2 =>
        some (.jnum "Infinity", r2)
    | '-' :: 'I' :: 'n' :: 'f' :: 'i' :: 'n' :: 'i' :: 't' :: 'y' :: r2 =>
        some (.jnum "-Infinity", r2)
    | '{' :: r2 =>
        (match skipWs r2 with
         | '}' :: r3 => some (.jobj [], r3)
         | other => parseMembers fuel other [])
    | '[' :: r2 =>
        (match skipWs r2 with
         | ']' :: r3 => some (.jarr [], r3)
         | other => parseElems fuel other [])
    | _ =>
        if c = quoteChar then
          (parseJStr r).map fun (s, r2) => (.jstr (String.mk s), r2)
        else
          (parseNumber input).map fun (lex, r2) => (.jnum lex, r2)

/-- Members of a JSON object after the opening brace (non-empty case),
building the dict with CPython's later-key-overwrites semantics. -/
def parseMembers : Nat → List Char → List (String × JVal) →
    Option (JVal × List Char)
  | 0, _, _ => none
  | fuel + 1, input, acc =>
    match input with
    | [] => none
    | c :: r =>
      if c = quoteChar then
        match parseJStr r with
        | none => none
        | some (key, r1) =>
          match skipWs r1 with
          | ':' :: r2 =>
            (match parseValue fuel (skipWs r2) with
             | none => none
             | some (v, r3) =>
               let acc2 := dictSet acc (String.mk key) v
               match skipWs r3 with
               | ',' :: r4 => parseMembers fuel (skipWs r4) acc2
               | '}' :: r4 => some (.jobj acc2, r4)
               | _ => none)
          | _ => none
      else none

/-- Elements of a JSON array after the opening bracket (non-empty case). -/
def parseElems : Nat → List Char → List JVal → Option (JVal × List Char)
  | 0, _, _ => none
  | fuel + 1, input, acc =>
    match parseValue fuel input with
    | none => none
    | some (v, r) =>
      match skipWs r with
      | ',' :: r2 => parseElems fuel (skipWs r2) (acc ++ [v])
      | ']' :: r2 => some (.jarr (acc ++ [v]), r2)
      | _ => none

end

/-- Model of `json.loads` on a character sequence: optional whitespace, exactly one
JSON document, optional whitespace, end of input. -/
def json_loads (s : List Char) : Option JVal :=
  match parseValue (2 * s.length + 2) (skipWs s) with
  | some (v, rest) => if (skipWs rest).isEmpty then some v else none
  | none => none

/-- Whether `json.loads` succeeds, i.e. the text is a single valid JSON
document. -/
def json_valid (s : List Char) : Bool := (json_loads s).isSome

/-- A byte buffer that decodes as UTF-8 into a single valid JSON document. -/
def bytesValidJson (b : List Nat) : Bool :=
  match utf8_decode b with
  | some s => json_valid s
  | none => false

/-- One outcome of a `sock.recv(buffer_size)` call in the read loop of
`receive_full_response`: either a byte chunk (the empty chunk models the
peer closing the connection) or a `socket.timeout`. -/
inductive RecvEvent where
  | chunk : List Nat → RecvEvent
  | timeout : RecvEvent
deriving DecidableEq, Repr

/-- How `receive_full_response` terminates.  `noneRet` is the implicit
`None` return produced when the loop `break`s with accumulated data (there
is no statement after the `while` loop); the `err*` constructors are the
exceptions the function raises; `blocked` is a model artifact meaning the
supplied event stream ran out (a real `recv` would block or time out). -/
inductive RecvOutcome where
  | ok : List Nat → RecvOutcome
  | noneRet : RecvOutcome
  | errClosed : RecvOutcome
  | errTimeout : RecvOutcome
  | errDecode : RecvOutcome
  | blocked : RecvOutcome
deriving DecidableEq, Repr

/-- The read loop of `UnrealConnection.receive_full_response`
(`unreal_mcp_server.py` lines 126–165), with `acc` the join of `chunks`.
Per iteration: an empty `recv` result raises "Connection closed before
receiving data" when nothing is accumulated and otherwise `break`s (the
function then returns `None`); a non-empty chunk is appended, the whole
buffer is UTF-8 decoded (a `UnicodeDecodeError` here is re-raised by the
outer handler) and JSON-parsed — parse success returns the buffer, parse
failure continues reading.  A `socket.timeout` returns the buffer if it
already forms valid JSON and otherwise raises "Timeout receiving Unreal
response". -/
def receiveLoop (acc : List Nat) : List RecvEvent → RecvOutcome
  | [] => .blocked
  | .timeout :: _ =>
      if acc.isEmpty then .errTimeout
      else
        match utf8_decode acc with
        | some s => if json_valid s then .ok acc else .errTimeout
        | none => .errTimeout
  | .chunk b :: rest =>
      if b.isEmpty then
        if acc.isEmpty then .errClosed else .noneRet
      else
        match utf8_decode (acc ++ b) with
        | none => .errDecode
        | some s =>
          if json_valid s then .ok (acc ++ b) else receiveLoop (acc ++ b) rest

/-- The method `UnrealConnection.receive_full_response`, fed the outcomes of its
successive `recv` calls. -/
def receive_full_response (events : List RecvEvent) : RecvOutcome :=
  receiveLoop [] events

/-- The default error text used by `send_command`'s normalization. -/
def unknownErr : JVal := .jstr "Unknown Unreal error"

/-- The test `response.get("status") == "error"`. -/
def isStatusError (fields : List (String × JVal)) : Bool :=
  match dictGet fields "status" with
  | some (.jstr s) => s == "error"
  | _ => false

/-- The test `response.get("success") is False` (true only for the boolean). -/
def isSuccessFalse (fields : List (String × JVal)) : Bool :=
  match dictGet fields "success" with
  | some (.jbool false) => true
  | _ => false

/-- The expression `response.get("error") or response.get("message", "Unknown Unreal
error")`. -/
def errMessageOf (fields : List (String × JVal)) : JVal :=
  pyOr ((dictGet fields "error").getD .jnull)
    ((dictGet fields "message").getD unknownErr)

/-- The error-shape folding block of `send_command` (`unreal_mcp_server.py`
lines 202–217) on a decoded dict: a `status = "error"` reply is kept as is
with an `error` key ensured; otherwise a `success is False` reply is
rewritten to the two-field `{status, error}` shape; anything else passes
through unchanged. -/
def normalizeDict (fields : List (String × JVal)) : List (String × JVal) :=
  if isStatusError fields then
    if dictContains fields "error" then fields
    else dictSet fields "error" (errMessageOf fields)
  else if isSuccessFalse fields then
    [("status", .jstr "error"), ("error", errMessageOf fields)]
  else fields

/-- Message of the `AttributeError` raised by `response.get(...)` when the
decoded reply is not a dict (placeholder for CPython's exact text, which no
claim depends on). -/
def attrGetMsg : String := "response object has no attribute get"

/-- Normalization applied to an arbitrary decoded reply: on a dict it is
`normalizeDict`; on any other value the very first `response.get` raises,
which `send_command`'s handler turns into an error Response. -/
def normalize (v : JVal) : Except String JVal :=
  match v with
  | .jobj fields => .ok (.jobj (normalizeDict fields))
  | _ => .error attrGetMsg

/-- The behaviour of the outside world during one `send_command` call:
whether the TCP connect succeeds, whether `sendall` succeeds (with the
exception text if not), and the stream of `recv` outcomes. -/
structure CallWorld where
  connect_ok : Bool
  send_ok : Bool
  send_err : String
  recv : List RecvEvent

/-- What `send_command` returns: `noneRet` is Python's `None`, `resp` a
response dict; `blocked` only propagates the `RecvOutcome.blocked` model
artifact. -/
inductive SendResult where
  | noneRet : SendResult
  | resp : JVal → SendResult
  | blocked : SendResult

/-- The error Response `send_command` builds in its exception handler. -/
def errorResponse (msg : String) : JVal :=
  .jobj [("status", .jstr "error"), ("error", .jstr msg)]

/-- Exception text of the read loop's closed-connection failure. -/
def errClosedMsg : String := "Connection closed before receiving data"

/-- Exception text of the read loop's timeout failure. -/
def errTimeoutMsg : String := "Timeout receiving Unreal response"

/-- Placeholder for the `UnicodeDecodeError` text (no claim depends on it). -/
def unicodeErrMsg : String := "invalid utf-8 in response"

/-- Placeholder for the `AttributeError` raised by `None.decode(...)` after
the read loop falls through and returns `None`. -/
def noneDecodeMsg : String := "NoneType object has no attribute decode"

/-- Placeholder for a `json.JSONDecodeError` text (unreachable: the read
loop only returns buffers it already parsed successfully). -/
def jsonErrMsg : String := "invalid json in response"

/-- The connection bookkeeping of `UnrealConnection`: the held socket (by
id) and the `connected` flag. -/
structure ConnState where
  sock : Option Nat
  connected : Bool
deriving DecidableEq, Repr

/-- Socket accounting used to audit leaks: ids already handed out and the
ids of sockets currently open (created and not yet closed). -/
structure SockTrace where
  nextId : Nat
  openSocks : List Nat
deriving DecidableEq, Repr

/-- Close a socket id (idempotent, like `socket.close`). -/
def closeSock (tr : SockTrace) (s : Nat) : SockTrace :=
  { tr with openSocks := tr.openSocks.erase s }

/-- The method `UnrealConnection.connect` (`unreal_mcp_server.py` lines 79–110): any
held socket is closed and dropped, a fresh socket is created, and the TCP
connect is attempted.  On failure — modelled at the `connect` syscall, after
the socket object exists (the refused / unreachable / timeout case) — the
handler only sets `connected = False` and returns `False`: the fresh socket
stays in `self.socket`, unclosed. -/
def connect (st : ConnState) (tr : SockTrace) (ok : Bool) :
    ConnState × SockTrace × Bool :=
  let tr1 :=
    match st.sock with
    | some s => closeSock tr s
    | none => tr
  let sid := tr1.nextId
  let tr2 : SockTrace := ⟨sid + 1, sid :: tr1.openSocks⟩
  if ok then (⟨some sid, true⟩, tr2, true)
  else (⟨some sid, false⟩, tr2, false)

/-- The send / receive / decode / normalize pipeline inside `send_command`'s
`try` block, after a successful connect (`unreal_mcp_server.py` lines
183–242): a `sendall` failure and every exception raised by the receive,
decode, parse or normalize stages is caught by the `except` handler and
converted to an error Response wrapping the exception text; otherwise the
normalized reply is returned.  The result does not depend on the connection
state. -/
def send_command_result (w : CallWorld) : SendResult :=
  if ¬ w.send_ok then .resp (errorResponse w.send_err)
  else
    match receive_full_response w.recv with
    | .blocked => .blocked
    | .errClosed => .resp (errorResponse errClosedMsg)
    | .errTimeout => .resp (errorResponse errTimeoutMsg)
    | .errDecode => .resp (errorResponse unicodeErrMsg)
    | .noneRet => .resp (errorResponse noneDecodeMsg)
    | .ok data =>
      match utf8_decode data with
      | none => .resp (errorResponse unicodeErrMsg)
      | some s =>
        match json_loads s with
        | none => .resp (errorResponse jsonErrMsg)
        | some v =>
          match normalize v with
          | .ok r => .resp r
          | .error msg => .resp (errorResponse msg)

/-- The method `UnrealConnection.send_command` (`unreal_mcp_server.py` lines 167–242):
force-close any held socket, reconnect from scratch, and on connect failure
return `None`.  Otherwise run `send_command_result`; both the success path
and the `except` handler close the socket and clear the state before
returning.  `command` and `params` shape the bytes written to the peer;
with the peer abstracted into `w` they do not influence the result. -/
def send_command (command : String) (params : JVal) (st : ConnState)
    (tr : SockTrace) (w : CallWorld) : ConnState × SockTrace × SendResult :=
  let (st1, tr1) : ConnState × SockTrace :=
    match st.sock with
    | some s => (⟨none, false⟩, closeSock tr s)
    | none => (st, tr)
  let (st2, tr2, ok) := connect st1 tr1 w.connect_ok
  if ¬ ok then (st2, tr2, .noneRet)
  else
    let tr3 :=
      match st2.sock with
      | some s => closeSock tr2 s
      | none => tr2
    (⟨none, false⟩, tr3, send_command_result w)

/-- N successive `send_command` calls on one connection object, from a
given state, against a list of per-call world behaviours. -/
def runCalls (command : String) (params : JVal) :
    ConnState × SockTrace → List CallWorld → ConnState × SockTrace
  | sttr, [] => sttr
  | sttr, w :: ws =>
      let r := send_command command params sttr.1 sttr.2 w
      runCalls command params (r.1, r.2.1) ws

/-- The fresh connection object (`__init__`) and an empty socket ledger. -/
def initConn : ConnState × SockTrace := (⟨none, false⟩, ⟨0, []⟩)

/-- Retry bound of the orchestrator (`orchestrator.py` line 35). -/
def MAX_RETRIES : Nat := 2

/-- A plan step `{'tool': ..., 'args': ...}` as produced by `plan_steps`
and consumed by `execute_steps`. -/
structure Step where
  tool : String
  args : JVal

/-- Whether the first list is a prefix of the second (executably). -/
def leadsList : List Char → List Char → Bool
  | [], _ => true
  | _ :: _, [] => false
  | a :: as, b :: bs => a = b && leadsList as bs

/-- Substring containment on character lists. -/
def containsSub (needle : List Char) : List Char → Bool
  | [] => needle.isEmpty
  | c :: t => leadsList needle (c :: t) || containsSub needle t

/-- Python `needle in hay` on strings. -/
def strContains (needle hay : String) : Bool :=
  containsSub needle.toList hay.toList

/-- Python `str.lower` (ASCII case mapping; every prompt the claims
exercise is ASCII). -/
def pyLower (s : String) : String := String.mk (s.toList.map Char.toLower)

/-- One `{'type': t, 'name': n, 'save_path': p}` asset descriptor of the
dungeon plan. -/
def bpAsset (n : String) : JVal :=
  .jobj [("type", .jstr "Blueprint"), ("name", .jstr n),
         ("save_path", .jstr "/Game/Blueprints")]

/-- The planner `plan_steps(prompt, context)` (`orchestrator.py` lines 58–77): the one
rule matches `'dungeon' in prompt.lower()` and returns the fixed two-step
plan — a `create_level` call followed by a single `batch_create_assets`
call listing the eight Blueprint assets; otherwise the empty plan.
`context` is accepted and unused, as in the source. -/
def plan_steps (prompt : String) (context : JVal) : List Step :=
  if strContains "dungeon" (pyLower prompt) then
    [⟨"create_level", .jobj [("level_name", .jstr "ProceduralDungeon")]⟩,
     ⟨"batch_create_assets", .jobj [("assets", .jarr
        [bpAsset "BP_Room", bpAsset "BP_Monster1", bpAsset "BP_Monster2",
         bpAsset "BP_Monster3", bpAsset "BP_Monster4", bpAsset "BP_Monster5",
         bpAsset "BP_PlayerSpawn", bpAsset "BP_Exit"])]⟩]
  else []

/-- Outcome of one tool invocation: the call raises (with the exception
text) or returns a decoded value. -/
inductive ToolResult where
  | raises : String → ToolResult
  | returns : JVal → ToolResult

/-- The tool dispatch inside `execute_steps` (`orchestrator.py` lines
94–99): `create_level` and `batch_create_assets` call external tool
functions, whose behaviour on the given attempt is supplied by `beh`; any
other tool name yields the in-source `{'success': False, 'message':
'Unknown tool: ...'}` dict. -/
def toolDispatch (beh : Nat → ToolResult) (attempt : Nat) (s : Step) :
    ToolResult :=
  if s.tool = "create_level" then beh attempt
  else if s.tool = "batch_create_assets" then beh attempt
  else .returns (.jobj [("success", .jbool false),
    ("message", .jstr ("Unknown tool: " ++ s.tool))])

/-- Placeholder for the `AttributeError` text raised by `output.get` when a
tool returns a non-dict (no claim depends on the exact text). -/
def outputGetMsg : String := "output object has no attribute get"

/-- What one attempt's `try` body does with the tool outcome
(`orchestrator.py` lines 100–102): an exception fails the attempt with its
text; a returned dict fails only when `output.get('success')` is falsy AND
`error = output.get('message')` is truthy (then `raise Exception(error)`);
otherwise — including a falsy `success` with a missing or falsy `message` —
the attempt counts as a success.  A non-dict return raises at
`output.get`. -/
def attemptError (out : ToolResult) : Option String :=
  match out with
  | .raises msg => some msg
  | .returns v =>
    match v with
    | .jobj fields =>
      if truthy ((dictGet fields "success").getD .jnull) then none
      else
        let m := (dictGet fields "message").getD .jnull
        if truthy m then some (pyStr m) else none
    | _ => some outputGetMsg

/-- The value recorded as `output` on a successful attempt. -/
def attemptOutput (out : ToolResult) : Option JVal :=
  match out with
  | .returns v => some v
  | .raises _ => none

/-- One entry of the Run Result ledger
(`results.append({"step": ..., "output": ..., "error": ...})`). -/
structure RunEntry where
  step : Step
  output : Option JVal
  error : Option String

/-- The retry loop of `execute_steps` for one step (`while attempt <=
MAX_RETRIES`), with `left = MAX_RETRIES - attempt` the retries still
allowed.  Returns the recorded entry and the number of attempts actually
executed. -/
def runStepGo (s : Step) (beh : Nat → ToolResult) :
    Nat → Nat → RunEntry × Nat
  | attempt, left =>
    match attemptError (toolDispatch beh attempt s), left with
    | none, _ =>
      (⟨s, attemptOutput (toolDispatch beh attempt s), none⟩, attempt + 1)
    | some msg, 0 => (⟨s, none, some msg⟩, attempt + 1)
    | some _, l + 1 => runStepGo s beh (attempt + 1) l

/-- One step's execution with the full retry budget. -/
def runStep (s : Step) (beh : Nat → ToolResult) : RunEntry × Nat :=
  runStepGo s beh 0 MAX_RETRIES

/-- The executor `execute_steps(steps)` (`orchestrator.py` lines 83–114): each step in
planned order, sequentially, appending exactly one ledger entry per step.
`beh i k` supplies the external tool behaviour for attempt `k` of the step
at position `i`. -/
def execute_steps (steps : List Step) (beh : Nat → Nat → ToolResult) :
    List RunEntry :=
  go 0 steps
where
  /-- The `for step in steps` loop, at position `i`. -/
  go (i : Nat) : List Step → List RunEntry
    | [] => []
    | s :: rest => (runStep s (beh i)).1 :: go (i + 1) rest

theorem dictGet_dictSet_self (f : List (String × JVal)) (k : String) (v : JVal) :
    dictGet (dictSet f k v) k = some v := by
  induction f with
  | nil => simp [dictGet, dictSet]
  | cons p rest ih =>
    obtain ⟨k2, v2⟩ := p
    by_cases h : k2 = k <;> simp [dictGet, dictSet, h, ih]

theorem dictGet_dictSet_ne (f : List (String × JVal)) (k k2 : String) (v : JVal)
    (h : k2 ≠ k) : dictGet (dictSet f k v) k2 = dictGet f k2 := by
  have h2 : k ≠ k2 := fun hh => h hh.symm
  induction f with
  | nil => simp [dictGet, dictSet, h2]
  | cons p rest ih =>
    obtain ⟨k3, v3⟩ := p
    by_cases h3 : k3 = k
    · subst h3
      simp [dictGet, dictSet, h2]
    · by_cases h4 : k3 = k2 <;> simp [dictGet, dictSet, if_neg h3, h4, ih, h]

theorem dictContains_dictSet_self (f : List (String × JVal)) (k : String)
    (v : JVal) : dictContains (dictSet f k v) k = true := by
  induction f with
  | nil => simp [dictContains, dictSet]
  | cons p rest ih =>
    obtain ⟨k2, v2⟩ := p
    by_cases h : k2 = k <;> simp [dictContains, dictSet, h, ih]

theorem dictContains_of_dictGet (f : List (String × JVal)) (k : String)
    (v : JVal) (h : dictGet f k = some v) : dictContains f k = true := by
  induction f with
  | nil => simp [dictGet] at h
  | cons p rest ih =>
    obtain ⟨k2, v2⟩ := p
    by_cases h2 : k2 = k
    · simp [dictContains, h2]
    · simp only [dictGet, if_neg h2] at h
      simp [dictContains, h2, ih h]

theorem dictGet_of_not_dictContains (f : List (String × JVal)) (k : String)
    (h : dictContains f k = false) : dictGet f k = none := by
  induction f with
  | nil => simp [dictGet]
  | cons p rest ih =>
    obtain ⟨k2, v2⟩ := p
    by_cases h2 : k2 = k
    · simp [dictContains, h2] at h
    · simp only [dictContains, if_neg h2] at h
      simp [dictGet, h2, ih h]

theorem isStatusError_spec (f : List (String × JVal))
    (h : isStatusError f = true) : dictGet f "status" = some (.jstr "error") := by
  unfold isStatusError at h
  split at h
  · next s hs => rw [hs, eq_of_beq h]
  · exact absurd h (by simp)

theorem isStatusError_spec_false (f : List (String × JVal))
    (h : isStatusError f = false) : dictGet f "status" ≠ some (.jstr "error") := by
  intro hc
  unfold isStatusError at h
  rw [hc] at h
  simp at h

theorem isSuccessFalse_spec (f : List (String × JVal))
    (h : dictGet f "success" = some (.jbool false)) : isSuccessFalse f = true := by
  unfold isSuccessFalse
  rw [h]

/-- C5, counterexample: the claim quantifies over every reply of shape
`{"success": false, "error": "X"}`, but at `X = ""` the Python `or` chain
discards the falsy empty string and substitutes "Unknown Unreal error", so
the normalized `error` field is not `"X"`. -/
theorem C5_counterexample :
    normalize (.jobj [("success", .jbool false), ("error", .jstr "")]) =
      .ok (.jobj [("status", .jstr "error"),
        ("error", .jstr "Unknown Unreal error")]) ∧
    JVal.jstr "Unknown Unreal error" ≠ .jstr "" := by
  constructor
  · rfl
  · intro h
    injection h with h2
    exact absurd h2 (by decide)

/-- C5, amended: for every reply carrying `success = false` (the boolean)
and a NON-EMPTY error string `X`, normalization yields a mapping with
`status = "error"` and `error = "X"`; for every reply with
`status = "error"`, a message `Y` and no `error` key, the result's `error`
equals `Y`; and for every dict reply the normalized result has
`status = "error"` iff the reply matched one of the two failure shapes, in
which case an `error` key is always present. -/
theorem C5_normalization :
    (∀ fields x, x ≠ "" →
      dictGet fields "success" = some (.jbool false) →
      dictGet fields "error" = some (.jstr x) →
      ∃ f2, normalize (.jobj fields) = .ok (.jobj f2) ∧
        dictGet f2 "status" = some (.jstr "error") ∧
        dictGet f2 "error" = some (.jstr x)) ∧
    (∀ fields y,
      dictGet fields "status" = some (.jstr "error") →
      dictGet fields "message" = some (.jstr y) →
      dictContains fields "error" = false →
      ∃ f2, normalize (.jobj fields) = .ok (.jobj f2) ∧
        dictGet f2 "error" = some (.jstr y)) ∧
    (∀ fields f2, normalize (.jobj fields) = .ok (.jobj f2) →
      ((dictGet f2 "status" = some (.jstr "error")) ↔
        (isStatusError fields = true ∨ isSuccessFalse fields = true)) ∧
      (isStatusError fields = true ∨ isSuccessFalse fields = true →
        dictContains f2 "error" = true)) := by
  refine ⟨?_, ?_, ?_⟩
  · intro fields x hx hsucc herr
    by_cases hse : isStatusError fields = true
    · refine ⟨fields, ?_, isStatusError_spec _ hse, herr⟩
      simp [normalize, normalizeDict, hse, dictContains_of_dictGet _ _ _ herr]
    · have hb : isStatusError fields = false := by simpa using hse
      have hsf := isSuccessFalse_spec _ hsucc
      have htr : truthy (.jstr x) = true := by simp [truthy, hx]
      have hmsg : errMessageOf fields = .jstr x := by
        rw [errMessageOf, herr]
        simp [pyOr, htr]
      refine ⟨[("status", .jstr "error"), ("error", errMessageOf fields)],
        ?_, ?_, ?_⟩
      · simp [normalize, normalizeDict, hb, hsf]
      · simp [dictGet]
      · simp [dictGet, hmsg]
  · intro fields y hst hmsgget hnc
    have hse : isStatusError fields = true := by simp [isStatusError, hst]
    have hget : dictGet fields "error" = none :=
      dictGet_of_not_dictContains _ _ hnc
    have hmv : errMessageOf fields = .jstr y := by
      rw [errMessageOf, hget, hmsgget]
      simp [pyOr, truthy]
    refine ⟨dictSet fields "error" (errMessageOf fields), ?_, ?_⟩
    · simp [normalize, normalizeDict, hse, hnc]
    · rw [hmv]
      exact dictGet_dictSet_self _ _ _
  · intro fields f2 hn
    by_cases hse : isStatusError fields = true
    · by_cases hc : dictContains fields "error" = true
      · simp only [normalize, Except.ok.injEq, JVal.jobj.injEq] at hn
        rw [show normalizeDict fields = fields
          from by simp [normalizeDict, hse, hc]] at hn
        subst hn
        refine ⟨?_, fun _ => hc⟩
        simp [isStatusError_spec _ hse, hse]
      · have hcf : dictContains fields "error" = false := by simpa using hc
        simp only [normalize, Except.ok.injEq, JVal.jobj.injEq] at hn
        rw [show normalizeDict fields = dictSet fields "error" (errMessageOf fields)
          from by simp [normalizeDict, hse, hcf]] at hn
        subst hn
        constructor
        · rw [dictGet_dictSet_ne _ _ _ _ (by decide)]
          simp [isStatusError_spec _ hse, hse]
        · intro _
          exact dictContains_dictSet_self _ _ _
    · have hb : isStatusError fields = false := by simpa using hse
      by_cases hsf : isSuccessFalse fields = true
      · simp only [normalize, Except.ok.injEq, JVal.jobj.injEq] at hn
        rw [show normalizeDict fields =
            [("status", JVal.jstr "error"), ("error", errMessageOf fields)]
          from by simp [normalizeDict, hb, hsf]] at hn
        subst hn
        constructor
        · simp [dictGet, hsf]
        · intro _
          simp [dictContains]
      · have hbf : isSuccessFalse fields = false := by simpa using hsf
        simp only [normalize, Except.ok.injEq, JVal.jobj.injEq] at hn
        rw [show normalizeDict fields = fields
          from by simp [normalizeDict, hb, hbf]] at hn
        subst hn
        constructor
        · simp only [hb, hbf, Bool.false_eq_true, or_self, iff_false]
          exact isStatusError_spec_false _ hb
        · intro hor
          rcases hor with h | h
          · exact absurd h hse
          · exact absurd h hsf

/-- C5, witness: the amended theorem applied to the two concrete reply
shapes of the spec sentence, with `X = "X"` and `Y = "Y"`. -/
theorem C5_witness :
    (∃ f2, normalize (.jobj [("success", .jbool false), ("error", .jstr "X")]) =
        .ok (.jobj f2) ∧
      dictGet f2 "status" = some (.jstr "error") ∧
      dictGet f2 "error" = some (.jstr "X")) ∧
    (∃ f2, normalize (.jobj [("status", .jstr "error"), ("message", .jstr "Y")]) =
        .ok (.jobj f2) ∧
      dictGet f2 "error" = some (.jstr "Y")) :=
  ⟨C5_normalization.1 _ "X" (by decide) rfl rfl,
   C5_normalization.2.1 _ "Y" rfl rfl rfl⟩

/-- C10, counterexample: a reply carrying BOTH failure markers plus a
payload has `success == false`, yet normalization takes the
`status = "error"` branch and keeps every original field (adding `error`),
so the result is not the exact two-field mapping the claim requires for
every `success == false` reply. -/
theorem C10_counterexample :
    dictGet [("status", JVal.jstr "error"), ("success", JVal.jbool false),
        ("result", JVal.jnum "1")] "success" = some (.jbool false) ∧
    normalize (.jobj [("status", .jstr "error"), ("success", .jbool false),
        ("result", .jnum "1")]) =
      .ok (.jobj [("status", .jstr "error"), ("success", .jbool false),
        ("result", .jnum "1"), ("error", .jstr "Unknown Unreal error")]) ∧
    ∀ msg, JVal.jobj [("status", JVal.jstr "error"), ("success", JVal.jbool false),
        ("result", JVal.jnum "1"), ("error", JVal.jstr "Unknown Unreal error")] ≠
      .jobj [("status", .jstr "error"), ("error", msg)] := by
  refine ⟨rfl, rfl, ?_⟩
  intro msg h
  injection h with h2
  have hlen := congrArg List.length h2
  simp at hlen

/-- C10, amended: for a reply whose `status` is `"error"`, all original
fields are kept and only a missing `error` field may be added; for a reply
with `success == false` that does NOT also carry `status = "error"` (that
branch takes precedence), the result is exactly the two-field
`{status, error}` mapping, discarding every other original field. -/
theorem C10_normalization_frame :
    (∀ fields, isStatusError fields = true →
      ∃ f2, normalize (.jobj fields) = .ok (.jobj f2) ∧
        (∀ k, k ≠ "error" → dictGet f2 k = dictGet fields k) ∧
        dictContains f2 "error" = true ∧
        (dictContains fields "error" = true → f2 = fields)) ∧
    (∀ fields, isStatusError fields = false → isSuccessFalse fields = true →
      normalize (.jobj fields) =
        .ok (.jobj [("status", .jstr "error"), ("error", errMessageOf fields)])) := by
  constructor
  · intro fields hse
    by_cases hc : dictContains fields "error" = true
    · exact ⟨fields, by simp [normalize, normalizeDict, hse, hc],
        fun _ _ => rfl, hc, fun _ => rfl⟩
    · have hcf : dictContains fields "error" = false := by simpa using hc
      refine ⟨dictSet fields "error" (errMessageOf fields), ?_, ?_, ?_, ?_⟩
      · simp [normalize, normalizeDict, hse, hcf]
      · intro k hk
        exact dictGet_dictSet_ne _ _ _ _ hk
      · exact dictContains_dictSet_self _ _ _
      · intro hcc
        exact absurd hcc hc
  · intro fields hse hsf
    simp [normalize, normalizeDict, hse, hsf]

/-- C10, witness: both branches of the amended theorem at concrete
replies. -/
theorem C10_witness :
    (∃ f2, normalize (.jobj [("status", .jstr "error"), ("code", .jnum "7")]) =
        .ok (.jobj f2) ∧
      (∀ k, k ≠ "error" →
        dictGet f2 k = dictGet [("status", JVal.jstr "error"),
          ("code", JVal.jnum "7")] k) ∧
      dictContains f2 "error" = true ∧
      (dictContains [("status", JVal.jstr "error"), ("code", JVal.jnum "7")]
          "error" = true →
        f2 = [("status", JVal.jstr "error"), ("code", JVal.jnum "7")])) ∧
    normalize (.jobj [("success", .jbool false), ("note", .jstr "extra")]) =
      .ok (.jobj [("status", .jstr "error"),
        ("error", errMessageOf [("success", JVal.jbool false),
          ("note", JVal.jstr "extra")])]) :=
  ⟨C10_normalization_frame.1 _ rfl, C10_normalization_frame.2 _ rfl rfl⟩

theorem runStepGo_step (s : Step) (beh : Nat → ToolResult) :
    ∀ left attempt, ((runStepGo s beh attempt left).1).step = s := by
  intro left
  induction left with
  | zero =>
    intro attempt
    unfold runStepGo
    cases attemptError (toolDispatch beh attempt s) <;> rfl
  | succ l ih =>
    intro attempt
    unfold runStepGo
    cases attemptError (toolDispatch beh attempt s) with
    | none => rfl
    | some msg => exact ih (attempt + 1)

theorem runStepGo_exhaust (s : Step) (beh : Nat → ToolResult) (msg : Nat → String) :
    ∀ left attempt,
      (∀ k, attempt ≤ k → k ≤ attempt + left →
        attemptError (toolDispatch beh k s) = some (msg k)) →
      runStepGo s beh attempt left =
        (⟨s, none, some (msg (attempt + left))⟩, attempt + left + 1) := by
  intro left
  induction left with
  | zero =>
    intro attempt hf
    unfold runStepGo
    rw [hf attempt le_rfl (by omega)]
    rfl
  | succ l ih =>
    intro attempt hf
    unfold runStepGo
    rw [hf attempt le_rfl (by omega)]
    show runStepGo s beh (attempt + 1) l = _
    rw [ih (attempt + 1) (fun k h1 h2 => hf k (by omega) (by omega))]
    have harith : attempt + 1 + l = attempt + (l + 1) := by omega
    rw [harith]

theorem runStep_first_success (s : Step) (beh : Nat → ToolResult)
    (h : attemptError (toolDispatch beh 0 s) = none) :
    (runStep s beh).1 = ⟨s, attemptOutput (toolDispatch beh 0 s), none⟩ := by
  rw [runStep]
  unfold runStepGo
  rw [h]

theorem execute_steps_go_length (beh : Nat → Nat → ToolResult) :
    ∀ steps i, (execute_steps.go beh i steps).length = steps.length := by
  intro steps
  induction steps with
  | nil => intro i; rfl
  | cons s rest ih =>
    intro i
    simp only [execute_steps.go, List.length_cons, ih]

theorem execute_steps_go_get (beh : Nat → Nat → ToolResult) :
    ∀ steps j i (hi : i < steps.length),
      (execute_steps.go beh j steps).get? i =
        some ((runStep (steps.get ⟨i, hi⟩) (beh (j + i))).1) := by
  intro steps
  induction steps with
  | nil =>
    intro j i hi
    simp at hi
  | cons s rest ih =>
    intro j i hi
    cases i with
    | zero => rfl
    | succ n =>
      have hn : n < rest.length := by simpa using hi
      show (execute_steps.go beh (j + 1) rest).get? n = _
      rw [ih (j + 1) n hn]
      have harith : j + 1 + n = j + (n + 1) := by omega
      rw [harith]
      rfl

/-- C6, counterexample: a tool that always returns `{'success': False}`
(falsy `success`, no `message`) fails on every attempt in the claim's
sense, yet `execute_steps` computes `error = None` for it, records it as a
success after exactly one attempt, with the returned dict as `output` and a
null `error` — not MAX_RETRIES+1 attempts with a recorded failure. -/
theorem C6_counterexample :
    truthy ((dictGet [("success", JVal.jbool false)] "success").getD .jnull) =
      false ∧
    (runStep ⟨"create_level", .jobj []⟩
        (fun _ => .returns (.jobj [("success", .jbool false)]))).2 = 1 ∧
    execute_steps [⟨"create_level", .jobj []⟩]
        (fun _ _ => .returns (.jobj [("success", .jbool false)])) =
      [⟨⟨"create_level", .jobj []⟩,
        some (.jobj [("success", .jbool false)]), none⟩] :=
  ⟨rfl, rfl, rfl⟩

/-- C6, amended: a step whose tool invocation fails in the code's sense on
each of the first MAX_RETRIES+1 attempts — the attempt raises, or returns a
mapping whose `success` is falsy AND whose `message` is truthy (a falsy
`success` with a missing or falsy `message` is recorded as a success) — is
attempted exactly MAX_RETRIES+1 times, and its ledger entry has output
`None` and the last failure's message as its non-null `error`. -/
theorem C6_retry_bound (steps : List Step) (beh : Nat → Nat → ToolResult)
    (i : Nat) (hi : i < steps.length) (msg : Nat → String)
    (hfail : ∀ k, k ≤ MAX_RETRIES →
      attemptError (toolDispatch (beh i) k (steps.get ⟨i, hi⟩)) = some (msg k)) :
    (runStep (steps.get ⟨i, hi⟩) (beh i)).2 = MAX_RETRIES + 1 ∧
    (execute_steps steps beh).get? i =
      some ⟨steps.get ⟨i, hi⟩, none, some (msg MAX_RETRIES)⟩ := by
  have hrun := runStepGo_exhaust (steps.get ⟨i, hi⟩) (beh i) msg MAX_RETRIES 0
    (fun k h1 h2 => hfail k (by omega))
  rw [Nat.zero_add] at hrun
  constructor
  · rw [runStep, hrun]
  · rw [execute_steps, execute_steps_go_get beh steps 0 i hi, Nat.zero_add,
      runStep, hrun]

/-- C6, witness: the amended theorem at a one-step plan whose tool raises
"boom" on every attempt. -/
theorem C6_witness :
    (runStep (([⟨"create_level", JVal.jobj []⟩] : List Step).get
        ⟨0, by decide⟩) ((fun _ _ => ToolResult.raises "boom") 0)).2 =
      MAX_RETRIES + 1 ∧
    (execute_steps [⟨"create_level", .jobj []⟩]
        (fun _ _ => .raises "boom")).get? 0 =
      some ⟨([⟨"create_level", JVal.jobj []⟩] : List Step).get ⟨0, by decide⟩,
        none, some "boom"⟩ :=
  C6_retry_bound [⟨"create_level", JVal.jobj []⟩]
    (fun _ _ => ToolResult.raises "boom") 0 (by decide) (fun _ => "boom")
    (fun _ _ => rfl)

/-- C7: `execute_steps` produces exactly one ledger entry per planned step,
in planned order — entry `i` is the outcome of running step `i`'s retry
loop and carries that very step — and for a two-step plan whose second
step's first attempt succeeds, it returns two entries whose second has
`error = None`, regardless of the first step's failures. -/
theorem C7_forward_progress (steps : List Step) (beh : Nat → Nat → ToolResult) :
    (execute_steps steps beh).length = steps.length ∧
    (∀ i (hi : i < steps.length),
      (execute_steps steps beh).get? i =
        some ((runStep (steps.get ⟨i, hi⟩) (beh i)).1) ∧
      ((runStep (steps.get ⟨i, hi⟩) (beh i)).1).step = steps.get ⟨i, hi⟩) ∧
    (∀ s0 s1 beh2, attemptError (toolDispatch (beh2 1) 0 s1) = none →
      ∃ e0 e1, execute_steps [s0, s1] beh2 = [e0, e1] ∧ e1.error = none) := by
  refine ⟨?_, ?_, ?_⟩
  · rw [execute_steps]
    exact execute_steps_go_length beh steps 0
  · intro i hi
    constructor
    · rw [execute_steps, execute_steps_go_get beh steps 0 i hi, Nat.zero_add]
    · exact runStepGo_step _ _ MAX_RETRIES 0
  · intro s0 s1 beh2 h
    refine ⟨(runStep s0 (beh2 0)).1, (runStep s1 (beh2 1)).1, rfl, ?_⟩
    rw [runStep_first_success s1 (beh2 1) h]

/-- C7, witness: the two-entry consequence at a concrete plan whose first
step always raises and whose second step succeeds immediately. -/
theorem C7_witness :
    ∃ e0 e1, execute_steps
        [⟨"create_level", .jobj []⟩, ⟨"batch_create_assets", .jobj []⟩]
        (fun i _ => if i = 0 then .raises "down"
          else .returns (.jobj [("success", .jbool true)])) = [e0, e1] ∧
      e1.error = none :=
  (C7_forward_progress [] (fun _ _ => .raises "x")).2.2 _ _ _ rfl

/-- C8, counterexample: for the prompt "dungeon" the rule matches, but the
plan has two steps — the level creation plus ONE `batch_create_assets`
step whose argument lists the eight assets — so the "remaining steps" are a
single batched step, not eight blueprint-creation steps. -/
theorem C8_counterexample :
    (plan_steps "dungeon" (.jobj [])).length = 2 ∧
    ((plan_steps "dungeon" (.jobj [])).drop 1).length ≠ 8 := by
  constructor
  · rfl
  · decide

/-- C8, amended: a prompt containing "dungeon" (case-insensitively) yields
exactly the two-step plan — first a `create_level` call for
"ProceduralDungeon", then a single `batch_create_assets` call whose
`assets` argument lists exactly the eight Blueprint assets (room, five
monsters, player spawn, exit) in that literal order; any other prompt
yields the empty plan. -/
theorem C8_dungeon_plan (prompt : String) (context : JVal) :
    (strContains "dungeon" (pyLower prompt) = true →
      plan_steps prompt context =
        [⟨"create_level", .jobj [("level_name", .jstr "ProceduralDungeon")]⟩,
         ⟨"batch_create_assets", .jobj [("assets", .jarr
            [bpAsset "BP_Room", bpAsset "BP_Monster1", bpAsset "BP_Monster2",
             bpAsset "BP_Monster3", bpAsset "BP_Monster4", bpAsset "BP_Monster5",
             bpAsset "BP_PlayerSpawn", bpAsset "BP_Exit"])]⟩]) ∧
    (strContains "dungeon" (pyLower prompt) = false →
      plan_steps prompt context = []) := by
  constructor <;> intro h <;> simp [plan_steps, h]

theorem receiveLoop_ok_valid :
    ∀ (events : List RecvEvent) (acc data : List Nat),
      receiveLoop acc events = .ok data → bytesValidJson data = true := by
  intro events
  induction events with
  | nil =>
    intro acc data h
    simp [receiveLoop] at h
  | cons e rest ih =>
    intro acc data h
    cases e with
    | timeout =>
      unfold receiveLoop at h
      split at h
      · exact absurd h (by simp)
      · split at h
        · next s heq =>
          split at h
          · next hv =>
            injection h with h2
            subst h2
            simp [bytesValidJson, heq, hv]
          · exact absurd h (by simp)
        · exact absurd h (by simp)
    | chunk b =>
      unfold receiveLoop at h
      split at h
      · split at h <;> exact absurd h (by simp)
      · split at h
        · exact absurd h (by simp)
        · next s heq =>
          split at h
          · next hv =>
            injection h with h2
            subst h2
            simp [bytesValidJson, heq, hv]
          · exact ih _ _ h

/-- C9: whenever the read loop returns a byte buffer (rather than raising,
falling through to `None`, or blocking in the model), that buffer UTF-8
decodes and parses as a single valid JSON document — a buffer is only ever
returned immediately after a successful `json.loads`, both in the loop and
in the timeout recovery path. -/
theorem C9_returned_bytes_valid_json (events : List RecvEvent)
    (data : List Nat) (h : receive_full_response events = .ok data) :
    bytesValidJson data = true :=
  receiveLoop_ok_valid events [] data h

/-- C9, witness: the single-chunk exchange delivering `{}`. -/
theorem C9_witness : bytesValidJson [123, 125] = true :=
  C9_returned_bytes_valid_json [RecvEvent.chunk [123, 125]] [123, 125]
    (by decide)

theorem receiveLoop_boundary :
    ∀ (cs : List (List Nat)) (acc : List Nat), cs ≠ [] →
      (∀ c ∈ cs, c ≠ []) →
      bytesValidJson (acc ++ cs.flatten) = true →
      (∀ k, 0 < k → k < cs.length →
        (utf8_decode (acc ++ (cs.take k).flatten)).isSome = true ∧
        bytesValidJson (acc ++ (cs.take k).flatten) = false) →
      receiveLoop acc (cs.map RecvEvent.chunk) = .ok (acc ++ cs.flatten) := by
  intro cs
  induction cs with
  | nil =>
    intro acc hne
    exact absurd rfl hne
  | cons c cs ih =>
    intro acc _ hchunks hfull hpref
    have hc : c ≠ [] := hchunks c (by simp)
    have hcb : c.isEmpty = false := by
      cases c
      · exact absurd rfl hc
      · rfl
    simp only [List.map]
    unfold receiveLoop
    rw [hcb]
    simp only [Bool.false_eq_true, if_false]
    cases cs with
    | nil =>
      have hfull2 : bytesValidJson (acc ++ c) = true := by
        simpa using hfull
      cases hu : utf8_decode (acc ++ c) with
      | none =>
        unfold bytesValidJson at hfull2
        rw [hu] at hfull2
        exact absurd hfull2 (by simp)
      | some s =>
        have hv : json_valid s = true := by
          unfold bytesValidJson at hfull2
          rw [hu] at hfull2
          exact hfull2
        simp [hv]
    | cons c2 cs2 =>
      have hp1 := hpref 1 (by omega) (by simp)
      rw [show ((c :: c2 :: cs2).take 1).flatten = c by simp] at hp1
      obtain ⟨hdec, hnv⟩ := hp1
      cases hu : utf8_decode (acc ++ c) with
      | none =>
        rw [hu] at hdec
        exact absurd hdec (by simp)
      | some s =>
        have hv : json_valid s = false := by
          unfold bytesValidJson at hnv
          rw [hu] at hnv
          exact hnv
        show (if json_valid s = true then RecvOutcome.ok (acc ++ c)
          else receiveLoop (acc ++ c) (List.map RecvEvent.chunk (c2 :: cs2))) = _
        simp only [hv, Bool.false_eq_true, if_false]
        have hrec := ih (acc ++ c) (by simp)
          (fun x hx => hchunks x (by simp [hx]))
          (by rw [List.append_assoc]
              simpa [List.flatten_cons] using hfull)
          ?_
        · rw [hrec]
          simp [List.flatten_cons, List.append_assoc]
        · intro k hk1 hk2
          have hp := hpref (k + 1) (by omega) (by simpa using hk2)
          rw [show ((c :: c2 :: cs2).take (k + 1)).flatten =
            c ++ ((c2 :: cs2).take k).flatten by
              simp [List.take_succ_cons]] at hp
          rw [List.append_assoc]
          exact hp

/-- C1, counterexample: the chunk sequence `"12"`, `"3"` concatenates to
the single valid JSON document `123`, yet the loop returns after the first
chunk because the strict prefix `12` already parses as a complete JSON
number — the result is the bytes of `12`, not of `123`. -/
theorem C1_counterexample :
    (∀ c ∈ [[49, 50], [51]], c ≠ ([] : List Nat)) ∧
    bytesValidJson (List.flatten [[49, 50], [51]]) = true ∧
    receive_full_response (List.map RecvEvent.chunk [[49, 50], [51]]) ≠
      RecvOutcome.ok (List.flatten [[49, 50], [51]]) ∧
    receive_full_response (List.map RecvEvent.chunk [[49, 50], [51]]) =
      RecvOutcome.ok [49, 50] :=
  ⟨by decide, by decide, by decide, by decide⟩

/-- C1, amended: for a non-empty sequence of non-empty chunks whose
concatenation is one valid JSON document, and in which every proper
chunk-boundary prefix of the stream both decodes as UTF-8 (a boundary
splitting a multi-byte character would raise a `UnicodeDecodeError`) and
does NOT already parse as a complete JSON document (a parseable proper
prefix, e.g. of a bare number, would be returned early), the loop returns
exactly the concatenated bytes. -/
theorem C1_chunk_boundary_independence (cs : List (List Nat))
    (hne : cs ≠ []) (hchunks : ∀ c ∈ cs, c ≠ [])
    (hfull : bytesValidJson cs.flatten = true)
    (hpref : ∀ k, 0 < k → k < cs.length →
      (utf8_decode (cs.take k).flatten).isSome = true ∧
      bytesValidJson (cs.take k).flatten = false) :
    receive_full_response (cs.map RecvEvent.chunk) = .ok cs.flatten := by
  have h := receiveLoop_boundary cs [] hne hchunks (by simpa using hfull)
    (by intro k h1 h2; simpa using hpref k h1 h2)
  simpa using h

/-- C1, witness: the document `{"a":1}` split as `{"a"` + `:1}`. -/
theorem C1_witness :
    receive_full_response
        (List.map RecvEvent.chunk [[123, 34, 97, 34], [58, 49, 125]]) =
      RecvOutcome.ok (List.flatten [[123, 34, 97, 34], [58, 49, 125]]) :=
  C1_chunk_boundary_independence [[123, 34, 97, 34], [58, 49, 125]]
    (by decide) (by decide) (by decide)
    (fun k hk1 hk2 => by
      have hk : k = 1 := by
        simp at hk2
        omega
      subst hk
      exact ⟨by decide, by decide⟩)

/-- C2: evaluating the read loop at the two peer-close scenarios.  A close
with nothing accumulated raises the "Connection closed before receiving
data" error, as claimed; but a close after a partial (not-yet-JSON) buffer
`{"pa` makes the loop `break` and fall off the end of the function, which
returns `None` — not the accumulated buffer the claim (and the function's
own `-> bytes` annotation) promise. -/
theorem C2_close_behaviour :
    receive_full_response [RecvEvent.chunk []] = .errClosed ∧
    receive_full_response
        [RecvEvent.chunk [123, 34, 112, 97], RecvEvent.chunk []] =
      RecvOutcome.noneRet :=
  ⟨by decide, by decide⟩

theorem send_command_result_ne_none (w : CallWorld) :
    send_command_result w ≠ .noneRet := by
  unfold send_command_result
  split
  · simp
  · split
    · simp
    · simp
    · simp
    · simp
    · simp
    · split
      · simp
      · split
        · simp
        · split
          · simp
          · simp

theorem send_command_result_resp_jobj (w : CallWorld)
    (hrecv : receive_full_response w.recv ≠ .blocked) :
    ∃ fields, send_command_result w = .resp (.jobj fields) := by
  unfold send_command_result
  split
  · exact ⟨_, rfl⟩
  · split
    · next h => exact absurd h hrecv
    · exact ⟨_, rfl⟩
    · exact ⟨_, rfl⟩
    · exact ⟨_, rfl⟩
    · exact ⟨_, rfl⟩
    · split
      · exact ⟨_, rfl⟩
      · split
        · exact ⟨_, rfl⟩
        · next v hv =>
          split
          · next r hr =>
            cases v with
            | jobj f =>
              simp only [normalize, Except.ok.injEq] at hr
              exact ⟨normalizeDict f, by rw [← hr]⟩
            | jnull => simp [normalize] at hr
            | jbool b => simp [normalize] at hr
            | jnum n => simp [normalize] at hr
            | jstr s2 => simp [normalize] at hr
            | jarr a => simp [normalize] at hr
          · exact ⟨_, rfl⟩

theorem send_command_proj (command : String) (params : JVal) (st : ConnState)
    (tr : SockTrace) (w : CallWorld) :
    (send_command command params st tr w).2.2 =
      (if w.connect_ok then send_command_result w else .noneRet) := by
  unfold send_command connect
  cases st.sock <;> cases w.connect_ok <;> simp

/-- C3: `send_command` never lets an exception escape: in the model every
world behaviour (whose recv stream does not exhaust, the model's stand-in
for a socket that always eventually yields or times out) produces a value —
`None` exactly when the connect step fails, and otherwise a Response
mapping; local failures (send failure, receive timeout, peer close) are
converted to an error Response carrying the exception text. -/
theorem C3_send_command_total (command : String) (params : JVal)
    (st : ConnState) (tr : SockTrace) (w : CallWorld)
    (hrecv : receive_full_response w.recv ≠ .blocked) :
    ((send_command command params st tr w).2.2 = .noneRet ↔
      w.connect_ok = false) ∧
    (w.connect_ok = true →
      ∃ fields, (send_command command params st tr w).2.2 =
        .resp (.jobj fields)) ∧
    (w.connect_ok = true → w.send_ok = false →
      (send_command command params st tr w).2.2 =
        .resp (errorResponse w.send_err)) ∧
    (w.connect_ok = true → w.send_ok = true →
      receive_full_response w.recv = .errTimeout →
      (send_command command params st tr w).2.2 =
        .resp (errorResponse errTimeoutMsg)) ∧
    (w.connect_ok = true → w.send_ok = true →
      receive_full_response w.recv = .errClosed →
      (send_command command params st tr w).2.2 =
        .resp (errorResponse errClosedMsg)) := by
  rw [send_command_proj]
  cases hco : w.connect_ok with
  | false =>
    refine ⟨by simp, ?_, ?_, ?_, ?_⟩ <;> intro h <;> simp at h
  | true =>
    simp only [if_true]
    refine ⟨?_, ?_, ?_, ?_, ?_⟩
    · constructor
      · intro h
        exact absurd h (send_command_result_ne_none w)
      · intro h
        simp at h
    · intro _
      exact send_command_result_resp_jobj w hrecv
    · intro _ hso
      simp [send_command_result, hso]
    · intro _ hso hre
      simp [send_command_result, hso, hre]
    · intro _ hso hre
      simp [send_command_result, hso, hre]

/-- C3, witness: a world where connect succeeds and `sendall` raises; the
call returns the error Response wrapping the send exception's text. -/
theorem C3_witness :
    (send_command "ping" (.jobj []) initConn.1 initConn.2
        ⟨true, false, "sendall failed", [RecvEvent.chunk [123, 125]]⟩).2.2 =
      .resp (errorResponse "sendall failed") :=
  (C3_send_command_total "ping" (.jobj []) initConn.1 initConn.2
      ⟨true, false, "sendall failed", [RecvEvent.chunk [123, 125]]⟩
      (by decide)).2.2.1 rfl rfl

theorem send_command_connected_false (command : String) (params : JVal)
    (st : ConnState) (tr : SockTrace) (w : CallWorld) :
    ((send_command command params st tr w).1).connected = false := by
  unfold send_command connect
  cases st.sock <;> cases w.connect_ok <;> simp

theorem send_command_sock_inv (command : String) (params : JVal)
    (st : ConnState) (tr : SockTrace) (w : CallWorld)
    (hinv : tr.openSocks = st.sock.toList) :
    (send_command command params st tr w).2.1.openSocks =
      ((send_command command params st tr w).1).sock.toList := by
  cases hs : st.sock with
  | none =>
    rw [hs] at hinv
    unfold send_command connect closeSock
    cases w.connect_ok <;> simp [hinv, hs]
  | some s0 =>
    rw [hs] at hinv
    unfold send_command connect closeSock
    cases w.connect_ok <;> simp [hinv, hs]

/-- C4, counterexample: when the connect step fails (the typical refused /
unreachable case, raised at the `connect` syscall), `send_command` returns
with `connected = False` but the freshly created socket still held in
`self.socket` and still open — the claim that every call leaves "its socket
closed" fails at this outcome. -/
theorem C4_counterexample :
    ((send_command "ping" (.jobj []) initConn.1 initConn.2
        ⟨false, true, "", []⟩).1).connected = false ∧
    ((send_command "ping" (.jobj []) initConn.1 initConn.2
        ⟨false, true, "", []⟩).1).sock = some 0 ∧
    (send_command "ping" (.jobj []) initConn.1 initConn.2
        ⟨false, true, "", []⟩).2.1.openSocks = [0] :=
  ⟨rfl, rfl, rfl⟩

/-- C4, amended: after every `send_command` call the connection is in the
disconnected state; whenever the connect step succeeded (so also on send /
receive failures) the socket is closed and cleared; on a connect failure
the fresh socket remains held in the `socket` attribute, unclosed, until
the next call's force-close — so across N successive calls from a fresh
connection the set of still-open sockets is exactly the one held in the
attribute (empty unless the last call's connect failed): at most one socket
is ever left open, and none leak beyond the attribute. -/
theorem C4_connection_bookkeeping (command : String) (params : JVal) :
    (∀ st tr w, ((send_command command params st tr w).1).connected = false) ∧
    (∀ st tr w, w.connect_ok = true →
      ((send_command command params st tr w).1).sock = none) ∧
    (∀ ws, (runCalls command params initConn ws).2.openSocks =
      ((runCalls command params initConn ws).1).sock.toList) := by
  refine ⟨fun st tr w => send_command_connected_false command params st tr w,
    ?_, ?_⟩
  · intro st tr w hco
    unfold send_command connect
    cases st.sock <;> simp [hco]
  · intro ws
    suffices h : ∀ start : ConnState × SockTrace,
        start.2.openSocks = start.1.sock.toList →
        (runCalls command params start ws).2.openSocks =
          ((runCalls command params start ws).1).sock.toList from h initConn rfl
    induction ws with
    | nil =>
      intro start h
      exact h
    | cons w ws ih =>
      intro start h
      unfold runCalls
      exact ih _ (send_command_sock_inv command params start.1 start.2 w h)

/-- C4, witness: the amended theorem's socket-cleared part at a successful
exchange, and its no-leak ledger part after one failed-connect call. -/
theorem C4_witness :
    ((send_command "ping" (.jobj []) initConn.1 initConn.2
        ⟨true, true, "x", [RecvEvent.chunk [123, 125]]⟩).1).sock = none ∧
    (runCalls "ping" (.jobj []) initConn [⟨false, true, "x", []⟩]).2.openSocks =
      ((runCalls "ping" (.jobj []) initConn
        [⟨false, true, "x", []⟩]).1).sock.toList :=
  ⟨(C4_connection_bookkeeping "ping" (.jobj [])).2.1 initConn.1 initConn.2
      ⟨true, true, "x", [RecvEvent.chunk [123, 125]]⟩ rfl,
   (C4_connection_bookkeeping "ping" (.jobj [])).2.2 [⟨false, true, "x", []⟩]⟩

/-- C8, witness: both branches of the amended theorem, at a matching and at
a non-matching prompt. -/
theorem C8_witness :
    plan_steps "Make a Dungeon level" (.jobj []) =
      [⟨"create_level", .jobj [("level_name", .jstr "ProceduralDungeon")]⟩,
       ⟨"batch_create_assets", .jobj [("assets", .jarr
          [bpAsset "BP_Room", bpAsset "BP_Monster1", bpAsset "BP_Monster2",
           bpAsset "BP_Monster3", bpAsset "BP_Monster4", bpAsset "BP_Monster5",
           bpAsset "BP_PlayerSpawn", bpAsset "BP_Exit"])]⟩] ∧
    plan_steps "hello world" (.jobj []) = [] :=
  ⟨(C8_dungeon_plan _ _).1 (by decide), (C8_dungeon_plan _ _).2 (by decide)⟩

end UnrealMCP
